import Mathlib

/-!
Shallow embedding of the libgen_api gateway (src/app.py) and proofs of the
frozen claims about it.

Conventions of the embedding:

* Python strings are Lean `String`s; where character-level reasoning is
  needed (splitting a URL on a character) we work on `String.data`, the
  underlying `List Char`.
* A Python `dict` built by a comprehension is modelled as an insertion-order
  association list `List (String × String)`: assigning to an existing key
  replaces its value in place, assigning a fresh key appends.
* The pydantic field `exact_match : Optional[bool] = True` is an
  `Option Bool` defaulting to `some true`; Python truthiness of an
  `Optional[bool]` value (used by `all(...)`) is `Option.getD · false`:
  `None` is falsy, a `bool` is itself.
* The external backend (`searcher`) and the upstream HTTP fetch are
  modelled as explicit inputs describing their one observable outcome for
  the call at hand; a handler is then a pure function from the request and
  that outcome to its HTTP-level result.
-/

namespace LibgenApp

/-- The pydantic model `Filter` from src/app.py: field, value, and the
optional `exact_match` flag defaulting to `True`. -/
structure Filter where
  field : String
  value : String
  exact_match : Option Bool := some true
deriving DecidableEq, Repr

/-- The pydantic model `SearchRequest` from src/app.py: a query string and
an optional list of filters defaulting to `None`. -/
structure SearchRequest where
  query : String
  filters : Option (List Filter) := none
deriving DecidableEq, Repr

/-- Python `request.filters or []`: `None` and the empty list are falsy and
give `[]`; a non-empty list is itself. -/
def orEmpty (o : Option (List Filter)) : List Filter :=
  match o with
  | none => []
  | some l => l

/-- Python truthiness of an `Optional[bool]`: `None` is falsy. -/
def truthy (o : Option Bool) : Bool :=
  o.getD false

/-- `all(filter.exact_match for filter in fs)`: the conjunction of the
truthiness of every filter's `exact_match` flag (`all` of an empty
generator is `True`). -/
def allExact (fs : List Filter) : Bool :=
  fs.all (fun f => truthy f.exact_match)

/-- One update step of a Python dict (string keys, string values):
assigning to an existing key replaces its value in place, otherwise the
pair is appended, preserving insertion order. -/
def dictInsert (d : List (String × String)) (k v : String) : List (String × String) :=
  if d.any (fun p => p.1 == k) then
    d.map (fun p => if p.1 == k then (k, v) else p)
  else
    d ++ [(k, v)]

/-- The dict comprehension
`{filter.field: filter.value for filter in request.filters or []}`. -/
def buildFilters (fs : List Filter) : List (String × String) :=
  fs.foldl (fun d f => dictInsert d f.field f.value) []

/-- Dict lookup: the value of the first (and, for a well-formed dict, only)
entry with the given key. -/
def dictLookup (d : List (String × String)) (k : String) : Option String :=
  (d.find? (fun p => p.1 == k)).map (fun p => p.2)

/-- The distinct calls a handler can make on the external backend object
`searcher`, together with the arguments it passes. -/
inductive BackendOp where
  | searchTitle (query : String)
  | searchAuthor (query : String)
  | searchTitleFiltered (query : String) (filters : List (String × String))
      (exact_match : Bool)
  | searchAuthorFiltered (query : String) (filters : List (String × String))
      (exact_match : Bool)
deriving DecidableEq, Repr

/-- The observable result of a search handler: either an `HTTPException`
(status code and detail string) raised before any backend call, or the
single backend call whose results the handler returns unchanged. -/
inductive HandlerResult where
  | httpError (status : Nat) (detail : String)
  | callBackend (op : BackendOp)
deriving DecidableEq, Repr

/-- Handler of GET /search/title (src/app.py, `search_by_title`). -/
def search_by_title (query : String) : HandlerResult :=
  if query.length < 3 then
    HandlerResult.httpError 400 "Query must be at least 3 characters long."
  else
    HandlerResult.callBackend (BackendOp.searchTitle query)

/-- Handler of GET /search/author (src/app.py, `search_by_author`). -/
def search_by_author (query : String) : HandlerResult :=
  if query.length < 3 then
    HandlerResult.httpError 400 "Query must be at least 3 characters long."
  else
    HandlerResult.callBackend (BackendOp.searchAuthor query)

/-- Handler of POST /search/title/filtered (src/app.py,
`search_title_filtered`): length check, dict comprehension over the
filters, `all(...)` of the exact_match flags, one backend call. -/
def search_title_filtered (request : SearchRequest) : HandlerResult :=
  if request.query.length < 3 then
    HandlerResult.httpError 400 "Query must be at least 3 characters long."
  else
    HandlerResult.callBackend (BackendOp.searchTitleFiltered request.query
      (buildFilters (orEmpty request.filters))
      (allExact (orEmpty request.filters)))

/-- Handler of POST /search/author/filtered (src/app.py,
`search_author_filtered`). -/
def search_author_filtered (request : SearchRequest) : HandlerResult :=
  if request.query.length < 3 then
    HandlerResult.httpError 400 "Query must be at least 3 characters long."
  else
    HandlerResult.callBackend (BackendOp.searchAuthorFiltered request.query
      (buildFilters (orEmpty request.filters))
      (allExact (orEmpty request.filters)))

/-- Handler of POST /resolve (src/app.py, `resolve_download_links`): the
backend either raises (modelled `Except.error` with the exception message)
or returns a mapping; an exception becomes a 500 `HTTPException` whose
detail carries the message, a mapping is returned unchanged. -/
def resolve_download_links (backendResult : Except String (List (String × String))) :
    Except (Nat × String) (List (String × String)) :=
  match backendResult with
  | Except.error e => Except.error (500, "Error resolving download links: " ++ e)
  | Except.ok links => Except.ok links

/-- Python `s.split(sep)` for a one-character separator, on the character
list: `[]` splits to `[[]]`, a separator opens a new (initially empty)
chunk, any other character is prepended to the current first chunk. -/
def pySplit (c : Char) : List Char → List (List Char)
  | [] => [[]]
  | x :: xs =>
    if x = c then
      [] :: pySplit c xs
    else
      match pySplit c xs with
      | [] => [[x]]
      | h :: t => (x :: h) :: t

/-- Python `l[-1]`: the last element of a list (split results are always
non-empty, so the default is never reached). -/
def lastElem (l : List (List Char)) : List Char :=
  l.getLastD []

/-- `file_url.split("/")[-1]` on a Lean string. -/
def pySplitLastStr (s : String) : String :=
  String.mk (lastElem (pySplit '/' s.data))

/-- The substring of `s` after the last occurrence of `c` (the whole string
when `c` does not occur): the final path segment, in the spec's words. -/
def afterLast (c : Char) : List Char → List Char
  | [] => []
  | x :: xs =>
    if c ∈ xs then afterLast c xs
    else if x = c then xs
    else x :: xs

/-- The upstream HTTP response observed by the download proxy: status code,
headers, decoded body text, and raw body bytes. -/
structure UpstreamResponse where
  status : Nat
  headers : List (String × String)
  text : String
  content : String
deriving DecidableEq, Repr

/-- The outcome of the single `client.get(file_url)` call: either a
response came back (any status), or the transport failed
(`httpx.RequestError`: DNS, connection refused, timeout) with a message. -/
inductive FetchOutcome where
  | response (r : UpstreamResponse)
  | requestError (cause : String)
deriving DecidableEq, Repr

/-- The observable result of the download handler: an `HTTPException`
(status, detail) or a `Response` with body, media type and headers. -/
inductive DownloadResult where
  | httpError (status : Nat) (detail : String)
  | file (content : String) (media_type : String) (headers : List (String × String))
deriving DecidableEq, Repr

/-- `response.headers.get(k, d)`. -/
def headerGet (hs : List (String × String)) (k d : String) : String :=
  match hs.find? (fun p => p.1 == k) with
  | some p => p.2
  | none => d

/-- `httpx.Response.is_success`: `raise_for_status` raises `HTTPStatusError`
exactly when the status is not 2xx. -/
def is2xx (status : Nat) : Bool :=
  decide (200 ≤ status ∧ status < 300)

/-- Handler of GET /download (src/app.py, `download_file`). The handler
performs no validation of `file_url` (the source comment says so
explicitly); it issues the GET and then: a transport error is caught as a
500 with the cause in the detail; a non-2xx status (raised by
`raise_for_status`) is caught as an `HTTPException` mirroring the upstream
status with the upstream body text in the detail; a 2xx response is
returned with the upstream Content-Type (default
`application/octet-stream`) and a Content-Disposition attachment header
naming the last `/`-separated segment of `file_url`. -/
def download_file (file_url : String) (fetch : FetchOutcome) : DownloadResult :=
  match fetch with
  | FetchOutcome.requestError cause =>
      DownloadResult.httpError 500 ("Error downloading file: " ++ cause)
  | FetchOutcome.response r =>
      if is2xx r.status then
        let content_type := headerGet r.headers "Content-Type" "application/octet-stream"
        let filename := pySplitLastStr file_url
        DownloadResult.file r.content content_type
          [("Content-Disposition", "attachment; filename=\"" ++ filename ++ "\"")]
      else
        DownloadResult.httpError r.status ("Error downloading file: " ++ r.text)

/-- A catalog record: an ordered mapping of field names to string values. -/
abbrev Record := List (String × String)

/-- Field lookup on a Record; `none` when the field is absent. -/
def recordGet (r : Record) (k : String) : Option String :=
  (r.find? (fun p => p.1 == k)).map (fun p => p.2)

/-- Modelled from the spec: one Filter applied to one Record under a given
effective mode (§4.2) — the filtering itself lives in the external
`libgen_api` package, not under src/. Absent field: non-match; strict
mode: case-sensitive literal equality; non-strict mode: case-sensitive
substring containment. -/
def filterMatches (strict : Bool) (r : Record) (f : Filter) : Bool :=
  match recordGet r f.field with
  | none => false
  | some v => if strict then v == f.value else decide (f.value.data <:+: v.data)

/-- Modelled from the spec: the Filter Engine `apply` (§4.2). The effective
mode is the AND of every filter's own flag, applied uniformly; a record is
retained iff it passes every filter under that one mode. -/
def FilterEngine.apply (records : List Record) (filters : List Filter) : List Record :=
  let strict := allExact filters
  records.filter (fun r => filters.all (fun f => filterMatches strict r f))

/-! ### Lemmas about the Python dict model -/

theorem find?_map_update (d : List (String × String)) (k v : String)
    (hany : d.any (fun p => p.1 == k) = true) :
    (d.map (fun p => if p.1 == k then (k, v) else p)).find? (fun p => p.1 == k) =
      some (k, v) := by
  induction d with
  | nil => simp at hany
  | cons p d ih =>
    simp only [List.map_cons]
    by_cases hp : p.1 = k
    · rw [if_pos (show (p.1 == k) = true by simp [hp]),
        List.find?_cons_of_pos _ (by simp)]
    · rw [if_neg (show ¬ (p.1 == k) = true by simp [hp]),
        List.find?_cons_of_neg _ (by simp [hp])]
      exact ih (by simpa [hp] using hany)

theorem find?_append_single (d : List (String × String)) (k v : String)
    (hnone : d.find? (fun p => p.1 == k) = none) :
    (d ++ [(k, v)]).find? (fun p => p.1 == k) = some (k, v) := by
  induction d with
  | nil => simp
  | cons p d ih =>
    by_cases hp : p.1 = k
    · rw [List.find?_cons_of_pos _ (by simp [hp])] at hnone
      exact absurd hnone (by simp)
    · rw [List.find?_cons_of_neg _ (by simp [hp])] at hnone
      rw [List.cons_append, List.find?_cons_of_neg _ (by simp [hp])]
      exact ih hnone

theorem dictLookup_insert_self (d : List (String × String)) (k v : String) :
    dictLookup (dictInsert d k v) k = some v := by
  unfold dictLookup dictInsert
  by_cases hany : d.any (fun p => p.1 == k) = true
  · rw [if_pos hany, find?_map_update d k v hany]
    rfl
  · rw [if_neg hany]
    have hnone : d.find? (fun p => p.1 == k) = none := by
      rw [List.find?_eq_none]
      intro p hp hcon
      exact hany (List.any_eq_true.mpr ⟨p, hp, hcon⟩)
    rw [find?_append_single d k v hnone]
    rfl

theorem find?_map_update_other (d : List (String × String)) (k v k' : String)
    (h : k' ≠ k) :
    (d.map (fun p => if p.1 == k then (k, v) else p)).find? (fun p => p.1 == k') =
      d.find? (fun p => p.1 == k') := by
  induction d with
  | nil => rfl
  | cons p d ih =>
    simp only [List.map_cons]
    by_cases hp : p.1 = k
    · rw [if_pos (show (p.1 == k) = true by simp [hp])]
      rw [List.find?_cons_of_neg _ (by simp [Ne.symm h]),
        List.find?_cons_of_neg _ (by simp [hp, Ne.symm h])]
      exact ih
    · rw [if_neg (show ¬ (p.1 == k) = true by simp [hp])]
      by_cases hp' : p.1 = k'
      · rw [List.find?_cons_of_pos _ (by simp [hp']),
          List.find?_cons_of_pos _ (by simp [hp'])]
      · rw [List.find?_cons_of_neg _ (by simp [hp']),
          List.find?_cons_of_neg _ (by simp [hp'])]
        exact ih

theorem find?_append_single_other (d : List (String × String)) (k v k' : String)
    (h : k' ≠ k) :
    (d ++ [(k, v)]).find? (fun p => p.1 == k') = d.find? (fun p => p.1 == k') := by
  induction d with
  | nil =>
    rw [List.nil_append, List.find?_cons_of_neg _ (by simp [Ne.symm h])]
  | cons p d ih =>
    by_cases hp' : p.1 = k'
    · rw [List.cons_append, List.find?_cons_of_pos _ (by simp [hp']),
        List.find?_cons_of_pos _ (by simp [hp'])]
    · rw [List.cons_append, List.find?_cons_of_neg _ (by simp [hp']),
        List.find?_cons_of_neg _ (by simp [hp'])]
      exact ih

theorem dictLookup_insert_other (d : List (String × String)) (k v k' : String)
    (h : k' ≠ k) :
    dictLookup (dictInsert d k v) k' = dictLookup d k' := by
  unfold dictLookup dictInsert
  by_cases hany : d.any (fun p => p.1 == k) = true
  · rw [if_pos hany, find?_map_update_other d k v k' h]
  · rw [if_neg hany, find?_append_single_other d k v k' h]

theorem dictInsert_keys_nodup (d : List (String × String)) (k v : String)
    (h : (d.map Prod.fst).Nodup) :
    ((dictInsert d k v).map Prod.fst).Nodup := by
  unfold dictInsert
  by_cases hany : d.any (fun p => p.1 == k) = true
  · rw [if_pos hany]
    have hkeys : (d.map (fun p => if p.1 == k then (k, v) else p)).map Prod.fst =
        d.map Prod.fst := by
      rw [List.map_map]
      apply List.map_congr_left
      intro p _
      by_cases hp : p.1 = k
      · simp [hp]
      · simp [hp]
    rw [hkeys]
    exact h
  · rw [if_neg hany, List.map_append]
    have hnotmem : k ∉ d.map Prod.fst := by
      intro hk
      rcases List.mem_map.mp hk with ⟨p, hp, hpk⟩
      exact hany (List.any_eq_true.mpr ⟨p, hp, by simp [hpk]⟩)
    refine List.Nodup.append h (List.nodup_singleton k) ?_
    intro a ha hb
    rcases List.mem_singleton.mp hb with rfl
    exact hnotmem ha

theorem buildFilters_concat (fs : List Filter) (f : Filter) :
    buildFilters (fs ++ [f]) = dictInsert (buildFilters fs) f.field f.value := by
  unfold buildFilters
  rw [List.foldl_append]
  rfl

theorem buildFilters_keys_nodup (fs : List Filter) :
    ((buildFilters fs).map Prod.fst).Nodup := by
  induction fs using List.reverseRecOn with
  | nil => simp [buildFilters]
  | append_singleton fs f ih =>
    rw [buildFilters_concat]
    exact dictInsert_keys_nodup _ _ _ ih

theorem dictLookup_buildFilters (fs : List Filter) (k : String) :
    dictLookup (buildFilters fs) k =
      (fs.reverse.find? (fun f => f.field == k)).map (fun f => f.value) := by
  induction fs using List.reverseRecOn with
  | nil => rfl
  | append_singleton fs f ih =>
    rw [buildFilters_concat, List.reverse_append]
    simp only [List.reverse_singleton, List.singleton_append]
    by_cases hk : f.field = k
    · subst hk
      rw [dictLookup_insert_self, List.find?_cons_of_pos _ (by simp)]
      rfl
    · rw [dictLookup_insert_other _ _ _ _ (fun hh => hk hh.symm),
        List.find?_cons_of_neg _ (by simp [hk])]
      exact ih

/-! ### Lemmas about splitting on a character -/

theorem pySplit_cons_pos (c x : Char) (xs : List Char) (hx : x = c) :
    pySplit c (x :: xs) = [] :: pySplit c xs := by
  simp [pySplit, hx]

theorem pySplit_cons_neg (c x : Char) (xs : List Char) (hx : ¬ x = c)
    (h : List Char) (t : List (List Char)) (hps : pySplit c xs = h :: t) :
    pySplit c (x :: xs) = (x :: h) :: t := by
  simp [pySplit, hx, hps]

theorem pySplit_ne_nil (c : Char) (s : List Char) : pySplit c s ≠ [] := by
  cases s with
  | nil => simp [pySplit]
  | cons x xs =>
    by_cases hx : x = c
    · rw [pySplit_cons_pos c x xs hx]
      simp
    · cases hps : pySplit c xs with
      | nil =>
        simp [pySplit, hx, hps]
      | cons h t =>
        rw [pySplit_cons_neg c x xs hx h t hps]
        simp

theorem pySplit_cons_exists (c : Char) (s : List Char) :
    ∃ h t, pySplit c s = h :: t := by
  cases hps : pySplit c s with
  | nil => exact absurd hps (pySplit_ne_nil c s)
  | cons a b => exact ⟨a, b, rfl⟩

theorem pySplit_of_not_mem (c : Char) (s : List Char) (h : c ∉ s) :
    pySplit c s = [s] := by
  induction s with
  | nil => rfl
  | cons x xs ih =>
    have hx : ¬ x = c := fun hh => h (hh ▸ List.mem_cons_self x xs)
    have hxs : c ∉ xs := fun hh => h (List.mem_cons_of_mem x hh)
    exact pySplit_cons_neg c x xs hx xs [] (ih hxs)

theorem afterLast_cons_mem (c x : Char) (xs : List Char) (hm : c ∈ xs) :
    afterLast c (x :: xs) = afterLast c xs := by
  simp [afterLast, hm]

theorem afterLast_cons_not_mem (c x : Char) (xs : List Char) (hm : c ∉ xs) :
    afterLast c (x :: xs) = if x = c then xs else x :: xs := by
  simp [afterLast, hm]

theorem afterLast_of_not_mem (c : Char) (s : List Char) (h : c ∉ s) :
    afterLast c s = s := by
  cases s with
  | nil => rfl
  | cons x xs =>
    have hx : ¬ x = c := fun hh => h (hh ▸ List.mem_cons_self x xs)
    have hxs : c ∉ xs := fun hh => h (List.mem_cons_of_mem x hh)
    rw [afterLast_cons_not_mem c x xs hxs, if_neg hx]

theorem two_le_length_pySplit_of_mem (c : Char) (s : List Char) (h : c ∈ s) :
    2 ≤ (pySplit c s).length := by
  induction s with
  | nil => simp at h
  | cons x xs ih =>
    by_cases hx : x = c
    · rw [pySplit_cons_pos c x xs hx, List.length_cons]
      have := List.length_pos.mpr (pySplit_ne_nil c xs)
      omega
    · have hm : c ∈ xs := by
        rcases List.mem_cons.mp h with h' | h'
        · exact absurd h'.symm hx
        · exact h'
      obtain ⟨h1, t, hps⟩ := pySplit_cons_exists c xs
      have hlen := ih hm
      rw [hps] at hlen
      rw [pySplit_cons_neg c x xs hx h1 t hps]
      simpa using hlen

theorem getLastD_congr {α : Type} (t : List α) (a b : α) (h : t ≠ []) :
    t.getLastD a = t.getLastD b := by
  cases t with
  | nil => exact absurd rfl h
  | cons x xs => rw [List.getLastD_cons, List.getLastD_cons]

theorem lastElem_cons (l : List Char) (r : List (List Char)) :
    lastElem (l :: r) = r.getLastD l := by
  simp only [lastElem, List.getLastD_cons]

theorem lastElem_pySplit (c : Char) (s : List Char) :
    lastElem (pySplit c s) = afterLast c s := by
  induction s with
  | nil => rfl
  | cons x xs ih =>
    by_cases hx : x = c
    · rw [pySplit_cons_pos c x xs hx, lastElem_cons]
      have hlast : (pySplit c xs).getLastD [] = afterLast c xs := ih
      rw [hlast]
      by_cases hm : c ∈ xs
      · rw [afterLast_cons_mem c x xs hm]
      · rw [afterLast_cons_not_mem c x xs hm, if_pos hx,
          afterLast_of_not_mem c xs hm]
    · obtain ⟨h1, t, hps⟩ := pySplit_cons_exists c xs
      rw [pySplit_cons_neg c x xs hx h1 t hps, lastElem_cons]
      by_cases ht : t = []
      · subst ht
        have hm : c ∉ xs := by
          intro hm
          have := two_le_length_pySplit_of_mem c xs hm
          rw [hps] at this
          simp at this
        have hxs : h1 = xs := by
          have := hps.symm.trans (pySplit_of_not_mem c xs hm)
          exact (List.cons.injEq _ _ _ _ ▸ this).1
        rw [hxs, afterLast_cons_not_mem c x xs hm, if_neg hx]
        rfl
      · have hm : c ∈ xs := by
          by_contra hm
          have := hps.symm.trans (pySplit_of_not_mem c xs hm)
          exact ht (List.cons.injEq _ _ _ _ ▸ this).2
        rw [getLastD_congr t (x :: h1) h1 ht]
        rw [hps, lastElem_cons] at ih
        rw [ih, afterLast_cons_mem c x xs hm]

/-! ### The claims -/

/-- Claim C1: for every filtered search request (title or author) with a
non-empty filter list and a valid query, the handler makes one backend
call whose single exact-match boolean is the logical AND of every Filter's
`exact_match` flag (Python truthiness: an explicit `null` flag is falsy),
and the forwarded filter mapping carries only field/value pairs — no
per-filter mode. -/
theorem C1_effective_exact_match_is_and_of_flags (q : String) (fs : List Filter)
    (hq : ¬ q.length < 3) (hfs : fs ≠ []) :
    search_title_filtered ⟨q, some fs⟩ =
      HandlerResult.callBackend (BackendOp.searchTitleFiltered q (buildFilters fs)
        (fs.all (fun f => truthy f.exact_match))) ∧
    search_author_filtered ⟨q, some fs⟩ =
      HandlerResult.callBackend (BackendOp.searchAuthorFiltered q (buildFilters fs)
        (fs.all (fun f => truthy f.exact_match))) := by
  constructor <;>
    simp [search_title_filtered, search_author_filtered, hq, orEmpty, allExact]

/-- Witness for C1 at a concrete request whose two filters carry different
flags (true and false): the single effective mode is their AND. -/
theorem C1_effective_exact_match_witness :
    (¬ ("Dune" : String).length < 3 ∧
      ([⟨"Language", "English", some true⟩, ⟨"Extension", "pdf", some false⟩] :
        List Filter) ≠ []) ∧
    search_title_filtered ⟨"Dune",
        some [⟨"Language", "English", some true⟩, ⟨"Extension", "pdf", some false⟩]⟩ =
      HandlerResult.callBackend (BackendOp.searchTitleFiltered "Dune"
        (buildFilters [⟨"Language", "English", some true⟩, ⟨"Extension", "pdf", some false⟩])
        (([⟨"Language", "English", some true⟩, ⟨"Extension", "pdf", some false⟩] :
          List Filter).all (fun f => truthy f.exact_match))) := by
  refine ⟨⟨by decide, by decide⟩, ?_⟩
  exact (C1_effective_exact_match_is_and_of_flags "Dune"
    [⟨"Language", "English", some true⟩, ⟨"Extension", "pdf", some false⟩]
    (by decide) (by decide)).1

/-- Claim C2: a query shorter than 3 characters makes each of the four
search endpoints return HTTP 400 with the fixed detail and no backend
call; a query of length at least 3 is forwarded to the backend verbatim. -/
theorem C2_short_query_rejected_valid_query_forwarded (q : String)
    (fs : Option (List Filter)) :
    (q.length < 3 →
      search_by_title q =
        HandlerResult.httpError 400 "Query must be at least 3 characters long." ∧
      search_by_author q =
        HandlerResult.httpError 400 "Query must be at least 3 characters long." ∧
      search_title_filtered ⟨q, fs⟩ =
        HandlerResult.httpError 400 "Query must be at least 3 characters long." ∧
      search_author_filtered ⟨q, fs⟩ =
        HandlerResult.httpError 400 "Query must be at least 3 characters long.") ∧
    (¬ q.length < 3 →
      search_by_title q = HandlerResult.callBackend (BackendOp.searchTitle q) ∧
      search_by_author q = HandlerResult.callBackend (BackendOp.searchAuthor q) ∧
      search_title_filtered ⟨q, fs⟩ = HandlerResult.callBackend
        (BackendOp.searchTitleFiltered q (buildFilters (orEmpty fs))
          (allExact (orEmpty fs))) ∧
      search_author_filtered ⟨q, fs⟩ = HandlerResult.callBackend
        (BackendOp.searchAuthorFiltered q (buildFilters (orEmpty fs))
          (allExact (orEmpty fs)))) := by
  constructor <;> intro h <;>
    simp [search_by_title, search_by_author, search_title_filtered,
      search_author_filtered, h]

/-- Witness for C2: the two-character query from the spec's concrete
scenario is rejected, and a three-plus-character query is forwarded. -/
theorem C2_short_query_witness :
    search_by_title "Du" =
      HandlerResult.httpError 400 "Query must be at least 3 characters long." ∧
    search_by_title "Dune" = HandlerResult.callBackend (BackendOp.searchTitle "Dune") :=
  ⟨((C2_short_query_rejected_valid_query_forwarded "Du" none).1 (by decide)).1,
   ((C2_short_query_rejected_valid_query_forwarded "Dune" none).2 (by decide)).1⟩

/-- Counterexample to claim C3: the download handler does not reject a
file_url outside the allow-list — the spec's own foreign URL is fetched
from upstream and served, with no 400 "Invalid download link format."
response. -/
theorem C3_counterexample_foreign_url_not_rejected :
    download_file "https://evil.example/x"
        (FetchOutcome.response ⟨200, [], "", "body"⟩) =
      DownloadResult.file "body" "application/octet-stream"
        [("Content-Disposition", "attachment; filename=\"x\"")] ∧
    download_file "https://evil.example/x"
        (FetchOutcome.response ⟨200, [], "", "body"⟩) ≠
      DownloadResult.httpError 400 "Invalid download link format." := by
  constructor
  · rfl
  · decide

/-- Amended claim C3: the handler performs no URL-shape validation at all.
For every file_url the upstream GET is issued (the handler's result is
determined by, and varies with, the fetch outcome even for a
non-allow-listed URL), and any 400 response can only mirror an upstream
400 status — no rejection branch with detail "Invalid download link
format." exists. -/
theorem C3_no_url_validation_upstream_always_fetched (url : String)
    (fetch : FetchOutcome) :
    (∀ d, download_file url fetch = DownloadResult.httpError 400 d →
      ∃ r, fetch = FetchOutcome.response r ∧ r.status = 400) ∧
    download_file url (FetchOutcome.requestError "connection refused") ≠
      download_file url (FetchOutcome.response ⟨200, [], "", ""⟩) := by
  constructor
  · intro d hd
    cases fetch with
    | requestError cause => simp [download_file] at hd
    | response r =>
      by_cases h2 : is2xx r.status = true
      · simp [download_file, h2] at hd
      · simp [download_file, h2] at hd
        exact ⟨r, rfl, hd.1⟩
  · simp [download_file, is2xx]

/-- Witness for C3's amended claim at the foreign URL. -/
theorem C3_no_url_validation_witness :
    (∃ r, FetchOutcome.response ⟨400, [], "nf", ""⟩ = FetchOutcome.response r ∧
      r.status = 400) ∧
    download_file "https://evil.example/x" (FetchOutcome.requestError "connection refused") ≠
      download_file "https://evil.example/x" (FetchOutcome.response ⟨200, [], "", ""⟩) :=
  ⟨(C3_no_url_validation_upstream_always_fetched "https://evil.example/x"
      (FetchOutcome.response ⟨400, [], "nf", ""⟩)).1 "Error downloading file: nf" (by decide),
   (C3_no_url_validation_upstream_always_fetched "https://evil.example/x"
      (FetchOutcome.response ⟨400, [], "nf", ""⟩)).2⟩

/-- Claim C4: when the upstream GET completes with a non-2xx status, the
handler's error response carries exactly the upstream status code, and its
detail contains the upstream body text. -/
theorem C4_upstream_status_mirrored (url : String) (r : UpstreamResponse)
    (h : is2xx r.status = false) :
    download_file url (FetchOutcome.response r) =
      DownloadResult.httpError r.status ("Error downloading file: " ++ r.text) := by
  simp [download_file, h]

/-- Witness for C4: an upstream 404 yields a 404, not a 500. -/
theorem C4_upstream_status_witness :
    is2xx 404 = false ∧
    download_file "https://download.library.gift/main/123/abc123/book.pdf"
        (FetchOutcome.response ⟨404, [], "Not Found", ""⟩) =
      DownloadResult.httpError 404 ("Error downloading file: " ++ "Not Found") :=
  ⟨by decide,
   C4_upstream_status_mirrored "https://download.library.gift/main/123/abc123/book.pdf"
     ⟨404, [], "Not Found", ""⟩ (by decide)⟩

/-- Claim C5: a transport-level fetch failure yields HTTP 500 with the
underlying cause text in the detail; the single equation consumes the one
fetch outcome, so no retry occurs. -/
theorem C5_transport_error_yields_500_with_cause (url cause : String) :
    download_file url (FetchOutcome.requestError cause) =
      DownloadResult.httpError 500 ("Error downloading file: " ++ cause) := rfl

/-- Claim C6: /resolve surfaces any backend exception as a single 500
whose detail carries the backend's message and returns no mapping; when
the backend returns, its mapping is passed through unchanged. -/
theorem C6_resolve_all_or_nothing (e : String) (links : List (String × String)) :
    resolve_download_links (Except.error e) =
      Except.error (500, "Error resolving download links: " ++ e) ∧
    resolve_download_links (Except.ok links) = Except.ok links :=
  ⟨rfl, rfl⟩

/-- Claim C7: the filter engine's apply is an order-preserving subsequence
of its input (no insertions, no reordering), and every record it returns
satisfies every filter under the engine's single effective mode. -/
theorem C7_filter_engine_order_preserving_subsequence (records : List Record)
    (filters : List Filter) :
    List.Sublist (FilterEngine.apply records filters) records ∧
    ∀ r ∈ FilterEngine.apply records filters, ∀ f ∈ filters,
      filterMatches (allExact filters) r f = true := by
  constructor
  · simp only [FilterEngine.apply]
    exact List.filter_sublist records
  · intro r hr f hf
    simp only [FilterEngine.apply] at hr
    have hall := (List.mem_filter.mp hr).2
    exact List.all_eq_true.mp hall f hf

/-- Witness for C7 on the spec's concrete scenario 2: two records, an
exact Language filter, the surviving record satisfies it. -/
theorem C7_filter_engine_witness :
    List.Sublist
      (FilterEngine.apply [[("Language", "English")], [("Language", "French")]]
        [⟨"Language", "English", some true⟩])
      [[("Language", "English")], [("Language", "French")]] ∧
    filterMatches (allExact [⟨"Language", "English", some true⟩])
      [("Language", "English")] ⟨"Language", "English", some true⟩ = true :=
  ⟨(C7_filter_engine_order_preserving_subsequence
      [[("Language", "English")], [("Language", "French")]]
      [⟨"Language", "English", some true⟩]).1,
   (C7_filter_engine_order_preserving_subsequence
      [[("Language", "English")], [("Language", "French")]]
      [⟨"Language", "English", some true⟩]).2
     [("Language", "English")] (by decide)
     ⟨"Language", "English", some true⟩ (by decide)⟩

/-- Claim C8: a successful download response carries a
Content-Disposition header whose filename is exactly the substring of
file_url after its last "/" (the final path segment). -/
theorem C8_content_disposition_names_last_path_segment (url : String)
    (r : UpstreamResponse) (h : is2xx r.status = true) :
    download_file url (FetchOutcome.response r) =
      DownloadResult.file r.content
        (headerGet r.headers "Content-Type" "application/octet-stream")
        [("Content-Disposition",
          "attachment; filename=\"" ++ String.mk (afterLast '/' url.data) ++ "\"")] := by
  simp only [download_file, pySplitLastStr]
  rw [if_pos h, lastElem_pySplit]

/-- Witness for C8 on the spec's allow-listed URL. -/
theorem C8_content_disposition_witness :
    is2xx 200 = true ∧
    download_file "https://download.library.gift/main/123/abc123/book.pdf"
        (FetchOutcome.response ⟨200, [], "", "bytes"⟩) =
      DownloadResult.file "bytes"
        (headerGet [] "Content-Type" "application/octet-stream")
        [("Content-Disposition",
          "attachment; filename=\"" ++
            String.mk (afterLast '/'
              ("https://download.library.gift/main/123/abc123/book.pdf" : String).data) ++
            "\"")] :=
  ⟨by decide,
   C8_content_disposition_names_last_path_segment
     "https://download.library.gift/main/123/abc123/book.pdf"
     ⟨200, [], "", "bytes"⟩ (by decide)⟩

/-- Claim C9: the dict comprehension collapses the filter list into a
field-to-value mapping with one entry per field, and the value kept for a
field is the value of the last filter in the list naming it. -/
theorem C9_duplicate_fields_collapse_to_last_value (fs : List Filter) (k : String) :
    dictLookup (buildFilters fs) k =
      (fs.reverse.find? (fun f => f.field == k)).map (fun f => f.value) ∧
    ((buildFilters fs).map Prod.fst).Nodup :=
  ⟨dictLookup_buildFilters fs k, buildFilters_keys_nodup fs⟩

/-- Claim C10: with filters absent (None) or an empty list, the filtered
handlers forward an empty mapping with effective exact_match true (the AND
over nothing), still calling the filtered backend operation. -/
theorem C10_missing_or_empty_filters_forward_empty_strict (q : String)
    (hq : ¬ q.length < 3) :
    search_title_filtered ⟨q, none⟩ =
      HandlerResult.callBackend (BackendOp.searchTitleFiltered q [] true) ∧
    search_title_filtered ⟨q, some []⟩ =
      HandlerResult.callBackend (BackendOp.searchTitleFiltered q [] true) ∧
    search_author_filtered ⟨q, none⟩ =
      HandlerResult.callBackend (BackendOp.searchAuthorFiltered q [] true) ∧
    search_author_filtered ⟨q, some []⟩ =
      HandlerResult.callBackend (BackendOp.searchAuthorFiltered q [] true) := by
  refine ⟨?_, ?_, ?_, ?_⟩ <;>
    simp [search_title_filtered, search_author_filtered, hq, orEmpty, allExact,
      buildFilters]

/-- Witness for C10 at a concrete valid query. -/
theorem C10_missing_or_empty_filters_witness :
    (¬ ("Dune" : String).length < 3) ∧
    search_title_filtered ⟨"Dune", none⟩ =
      HandlerResult.callBackend (BackendOp.searchTitleFiltered "Dune" [] true) :=
  ⟨by decide,
   (C10_missing_or_empty_filters_forward_empty_strict "Dune" (by decide)).1⟩

end LibgenApp
